import Mathlib

/-!
Shallow embedding of `tail_tiles.py`, a terminal multi-file tail viewer.

Modelling conventions:
* File decoding (`errors='replace'`) is abstracted away: a file visible to
  `open` is modelled as the decoded text (`Option String`, `none` meaning the
  `open` call raises one of the caught `OSError` subclasses).
* `os.stat` results are modelled by `Option (Int × Int)`: `some (mtime, size)`
  on success, `none` when `os.stat` raises `OSError`.  Only equality of
  signatures matters to the program, so `st_mtime` is carried as an `Int`
  stand-in; Python's initial `(0.0, 0)` and the sentinel `(0, 0)` compare
  equal, so both are modelled as `(0, 0)`.
* Python lists become Lean lists; the mutation of `self._content`,
  `self._last_stat` and `self.lines` becomes functional record update.
* Negative-index slicing `lines[-n:]` is modelled by `pySliceFrom` with
  Python's slice-start normalisation.
-/

/-- One text line of `f.readlines()`: split the decoded text after each
newline character, keeping the terminator, with a final unterminated segment
kept if non-empty.  `acc` is the reversed prefix of the current line. -/
def readlinesAux : List Char → List Char → List String
  | [], acc => if acc = [] then [] else [String.mk acc.reverse]
  | c :: rest, acc =>
      if c = '\n' then String.mk (acc.reverse ++ ['\n']) :: readlinesAux rest []
      else readlinesAux rest (c :: acc)

/-- Python `f.readlines()` on the decoded text of the file. -/
def pyReadlines (s : String) : List String :=
  readlinesAux s.toList []

/-- Python `line.rstrip('\n\r')`: drop trailing characters that are a newline
or a carriage return. -/
def rstripNewlines (s : String) : String :=
  String.mk ((s.toList.reverse.dropWhile (fun c => c == '\n' || c == '\r')).reverse)

/-- Python `xs[i:]` for an arbitrary integer `i` (slice-start normalisation:
negative indices count from the end and are clamped to the list). -/
def pySliceFrom (xs : List String) (i : Int) : List String :=
  let len : Int := xs.length
  let start : Int := if i < 0 then max (len + i) 0 else min i len
  xs.drop start.toNat

/-- `read_last_n_lines(filepath, n)` from `tail_tiles.py`: read the last `n`
lines of the file; the `except (FileNotFoundError, PermissionError, OSError)`
handler returns `[]`, modelled by the `none` case. -/
def read_last_n_lines (file : Option String) (n : Int) : List String :=
  match file with
  | none => []
  | some text =>
      let lines := (pyReadlines text).map rstripNewlines
      if lines = [] then [] else pySliceFrom lines (-n)

/-- `clamp(value, min_val, max_val)` from `tail_tiles.py`. -/
def clamp (value min_val max_val : Int) : Int :=
  max min_val (min value max_val)

/-- State of the file system as seen by one `TailTile.update()` call:
the outcome of `os.stat` on the tile's path and the text `open` would
deliver (or `none` when `open` raises). -/
structure FileState where
  stat : Option (Int × Int)
  content : Option String
deriving DecidableEq

/-- `TailTile` from `tail_tiles.py`: `filepath`, `lines`, `_content` and
`_last_stat`. -/
structure TailTile where
  filepath : String
  lines : Int
  content : List String
  last_stat : Int × Int
deriving DecidableEq

/-- `TailTile.__init__(filepath, lines)` (Python default `lines = 10`);
`_content = []` and `_last_stat = (0.0, 0)`. -/
def mkTailTile (filepath : String) (lines : Int) : TailTile :=
  { filepath := filepath, lines := lines, content := [], last_stat := (0, 0) }

/-- `TailTile.update()` from `tail_tiles.py`, run against a `FileState`.
Returns the updated tile and the boolean result. -/
def TailTile.update (t : TailTile) (fs : FileState) : TailTile × Bool :=
  match fs.stat with
  | none =>
      if t.content ≠ [] then ({ t with content := [] }, true) else (t, false)
  | some current =>
      if current ≠ t.last_stat then
        ({ t with last_stat := current,
                  content := read_last_n_lines fs.content t.lines }, true)
      else (t, false)

/-- `TailTile.get_content()` value: `self._content.copy()` has the same
elements as the cache (aliasing is modelled separately on `TailTileRef`). -/
def TailTile.get_content (t : TailTile) : List String :=
  t.content

/-- `TileRenderer` from `tail_tiles.py`, without the curses screen handle
(`stdscr` is pure presentation and carries no data the claims mention). -/
structure TileRenderer where
  tiles : List TailTile
  rows : Int
  cols : Int
  line_count : Int
deriving DecidableEq

/-- `TileRenderer.__init__(stdscr, tiles, layout)`:
`line_count = tiles[0].lines if tiles else 10`. -/
def mkTileRenderer (tiles : List TailTile) (layout : Int × Int) : TileRenderer :=
  { tiles := tiles, rows := layout.1, cols := layout.2,
    line_count := match tiles with
      | [] => 10
      | t :: _ => t.lines }

/-- `TileRenderer.adjust_lines(delta)` from `tail_tiles.py`: clamp the new
count to `[1, 100]`, assign it to every tile and reset every signature to the
sentinel `(0, 0)`. -/
def TileRenderer.adjust_lines (r : TileRenderer) (delta : Int) : TileRenderer :=
  let lc := clamp (r.line_count + delta) 1 100
  { r with line_count := lc,
           tiles := r.tiles.map fun t => { t with lines := lc, last_stat := (0, 0) } }

/-- The per-iteration polling pass of `run_viewer`:
`for tile in tiles: if tile.update(): redraw = True`.  `fsys` gives the
`FileState` of each path at poll time. -/
def pollTiles (fsys : String → FileState) : List TailTile → List TailTile × Bool
  | [] => ([], false)
  | t :: rest =>
      ((t.update (fsys t.filepath)).1 :: (pollTiles fsys rest).1,
       (t.update (fsys t.filepath)).2 || (pollTiles fsys rest).2)

/-- Heap of Python list objects, for the aliasing behaviour of
`list.copy()`: references are indices into the store. -/
structure Heap where
  objs : List (List String)
deriving DecidableEq

/-- Dereference a list object (unused indices read as `[]`). -/
def Heap.read (h : Heap) (r : Nat) : List String :=
  h.objs.getD r []

/-- Allocate a fresh list object, returning the new heap and its reference.
Python's `list.copy()` always yields a new object. -/
def Heap.alloc (h : Heap) (v : List String) : Heap × Nat :=
  (⟨h.objs ++ [v]⟩, h.objs.length)

/-- In-place mutation of the list object behind `r` (covers `append`,
`remove`, item assignment: any change of the stored elements). -/
def Heap.write (h : Heap) (r : Nat) (v : List String) : Heap :=
  ⟨h.objs.set r v⟩

/-- `TailTile` with its `_content` list held by reference in a `Heap`,
to express object identity. -/
structure TailTileRef where
  filepath : String
  lines : Int
  contentRef : Nat
  last_stat : Int × Int
deriving DecidableEq

/-- `TailTile.get_content()` from `tail_tiles.py` over the heap model:
`return self._content.copy()` allocates a fresh list with the same
elements. -/
def TailTileRef.get_content (t : TailTileRef) (h : Heap) : Heap × Nat :=
  h.alloc (h.read t.contentRef)

/-! ### Helper lemmas -/

/-- For `n ≥ 1`, Python's `xs[-n:]` is `drop (length − n)`. -/
lemma pySliceFrom_neg (xs : List String) (n : Int) (h : 1 ≤ n) :
    pySliceFrom xs (-n) = xs.drop (xs.length - n.toNat) := by
  have hneg : (-n) < 0 := by omega
  simp only [pySliceFrom, if_pos hneg]
  congr 1
  rcases max_cases ((xs.length : Int) + -n) 0 with ⟨h1, h2⟩ | ⟨h1, h2⟩ <;> rw [h1] <;> omega

/-- Python's `xs[-0:]` is the whole list. -/
lemma pySliceFrom_zero (xs : List String) : pySliceFrom xs (-0) = xs := by
  have hnn : ¬ ((-0 : Int) < 0) := by omega
  simp only [pySliceFrom, if_neg hnn]
  simp

lemma readlinesAux_ne_nil (cs acc : List Char) (h : cs ≠ [] ∨ acc ≠ []) :
    readlinesAux cs acc ≠ [] := by
  induction cs generalizing acc with
  | nil =>
      rcases h with h | h
      · exact absurd rfl h
      · simp [readlinesAux, h]
  | cons c rest ih =>
      by_cases hc : c = '\n'
      · simp [readlinesAux, hc]
      · simpa [readlinesAux, hc] using ih (c :: acc) (Or.inr (by simp))

lemma toList_ne_nil (s : String) (h : s ≠ "") : s.toList ≠ [] := by
  intro hn
  apply h
  cases s with
  | mk data =>
      simp [String.toList, String.data] at hn
      subst hn
      rfl

lemma pyReadlines_ne_nil (text : String) (h : text ≠ "") : pyReadlines text ≠ [] :=
  readlinesAux_ne_nil text.toList [] (Or.inl (toList_ne_nil text h))

/-- A read with a positive requested count returns at most that many lines. -/
lemma read_last_n_lines_length_le (file : Option String) (n : Int) (h : 1 ≤ n) :
    ((read_last_n_lines file n).length : Int) ≤ n := by
  cases file with
  | none => simp [read_last_n_lines]; omega
  | some text =>
      simp only [read_last_n_lines]
      by_cases hl : (pyReadlines text).map rstripNewlines = []
      · rw [if_pos hl]; simp; omega
      · rw [if_neg hl, pySliceFrom_neg _ _ h, List.length_drop]
        omega

lemma one_le_clamp (x : Int) : 1 ≤ clamp x 1 100 :=
  le_max_left 1 _

lemma getD_append_lt (l1 l2 : List (List String)) (i : Nat) (h : i < l1.length) :
    (l1 ++ l2).getD i [] = l1.getD i [] := by
  induction l1 generalizing i with
  | nil => simp at h
  | cons a t ih =>
      cases i with
      | zero => rfl
      | succ j => exact ih j (by simp at h; omega)

lemma getD_concat_self (l : List (List String)) (v : List String) :
    (l ++ [v]).getD l.length [] = v := by
  induction l with
  | nil => rfl
  | cons a t ih => simp

lemma getD_set_ne (l : List (List String)) (i j : Nat) (h : i ≠ j) (v : List String) :
    (l.set i v).getD j [] = l.getD j [] := by
  induction l generalizing i j with
  | nil => rfl
  | cons a t ih =>
      cases i with
      | zero =>
          cases j with
          | zero => exact absurd rfl h
          | succ j2 => rfl
      | succ i2 =>
          cases j with
          | zero => rfl
          | succ j2 => simpa [List.set] using ih i2 j2 (by omega)

/-! ### Claim theorems -/

/-- C1: for every file and every integer `n ≥ 1`, `read_last_n_lines`
returns exactly the last `n` newline-delimited records of the file (all of
them when there are fewer than `n`), each with trailing newline and carriage
return characters stripped, and returns the empty list when the path cannot
be opened. -/
theorem read_last_n_lines_spec (text : String) (n : Int) (h : 1 ≤ n) :
    read_last_n_lines (some text) n =
      ((pyReadlines text).map rstripNewlines).drop
        (((pyReadlines text).map rstripNewlines).length - n.toNat) ∧
    read_last_n_lines none n = [] := by
  constructor
  · simp only [read_last_n_lines]
    by_cases hl : (pyReadlines text).map rstripNewlines = []
    · rw [if_pos hl, hl]
      simp
    · rw [if_neg hl, pySliceFrom_neg _ _ h]
  · rfl

/-- C1 witness at a concrete file of three records and `n = 2`. -/
theorem read_last_n_lines_spec_w :
    read_last_n_lines (some "a\nb\nc\n") 2 = ["b", "c"] ∧
    (read_last_n_lines (some "a\nb\nc\n") 2 =
      ((pyReadlines "a\nb\nc\n").map rstripNewlines).drop
        (((pyReadlines "a\nb\nc\n").map rstripNewlines).length - (2 : Int).toNat) ∧
    read_last_n_lines none 2 = []) :=
  ⟨by decide, read_last_n_lines_spec "a\nb\nc\n" 2 (by decide)⟩

/-- C2: when the stat fails, `update` clears a non-empty cache and reports
changed, reports unchanged on an already empty cache, and one tile's result
in a polling pass depends only on that tile and its own file, so a deleted
file affects no other tile. -/
theorem update_stat_failure (t : TailTile) (fs : FileState) (h : fs.stat = none) :
    (t.content ≠ [] → t.update fs = ({ t with content := [] }, true)) ∧
    (t.content = [] → t.update fs = (t, false)) ∧
    (∀ (fsys : String → FileState) (tiles : List TailTile) (i : Nat),
      (pollTiles fsys tiles).1.get? i =
        (tiles.get? i).map fun u => (u.update (fsys u.filepath)).1) := by
  refine ⟨fun hc => ?_, fun hc => ?_, fun fsys tiles => ?_⟩
  · simp [TailTile.update, h, hc]
  · simp [TailTile.update, h, hc]
  · induction tiles with
    | nil => intro i; simp [pollTiles]
    | cons u rest ih =>
        intro i
        cases i with
        | zero => simp [pollTiles]
        | succ j => simpa [pollTiles] using ih j

/-- C2 witness: a tile with cached content whose file disappears. -/
theorem update_stat_failure_w :
    TailTile.update ⟨"a.log", 10, ["x"], (1, 2)⟩ ⟨none, none⟩ =
      (⟨"a.log", 10, [], (1, 2)⟩, true) := by
  have h := update_stat_failure ⟨"a.log", 10, ["x"], (1, 2)⟩ ⟨none, none⟩ rfl
  exact h.1 (by decide)

/-- C4: all I/O failures inside `update` are absorbed and degrade to an
empty cache: a failing stat always leaves the cache empty, and a failing
open during a re-read stores the empty list. -/
theorem update_absorbs_failures (t : TailTile) (fs : FileState) :
    (fs.stat = none → (t.update fs).1.content = []) ∧
    (∀ cur, fs.stat = some cur → cur ≠ t.last_stat → fs.content = none →
      (t.update fs).1.content = []) := by
  constructor
  · intro h
    by_cases hc : t.content = [] <;> simp [TailTile.update, h, hc]
  · intro cur h hcur hc
    simp [TailTile.update, h, hcur, hc, read_last_n_lines]

/-- C4 witness: stat failure and open failure at concrete tiles. -/
theorem update_absorbs_failures_w :
    ((⟨"a.log", 10, ["x"], (1, 1)⟩ : TailTile).update ⟨none, none⟩).1.content = [] ∧
    ((⟨"a.log", 10, ["x"], (1, 1)⟩ : TailTile).update ⟨some (2, 2), none⟩).1.content = [] :=
  ⟨(update_absorbs_failures ⟨"a.log", 10, ["x"], (1, 1)⟩ ⟨none, none⟩).1 rfl,
   (update_absorbs_failures ⟨"a.log", 10, ["x"], (1, 1)⟩ ⟨some (2, 2), none⟩).2
     (2, 2) rfl (by decide) rfl⟩

/-- C5: a second `update` against the same file state reports unchanged and
leaves the cache exactly as after the first call. -/
theorem update_idem (t : TailTile) (fs : FileState) :
    ((t.update fs).1).update fs = ((t.update fs).1, false) := by
  cases hs : fs.stat with
  | none =>
      by_cases hc : t.content = [] <;> simp [TailTile.update, hs, hc]
  | some cur =>
      by_cases hcur : cur = t.last_stat <;> simp [TailTile.update, hs, hcur]

/-- C3 counterexample: `adjust_lines` resets the signature to `(0, 0)`, but
that sentinel can coincide with a real stat (empty file with epoch mtime), in
which case the next `update` does not re-read: it reports unchanged and keeps
the stale cache, contradicting the claim that the next update always
re-reads with the new count. -/
theorem adjust_lines_cex :
    ((mkTileRenderer [(⟨"f", 10, ["old"], (3, 7)⟩ : TailTile)] (1, 1)).adjust_lines 1).tiles =
      [⟨"f", 11, ["old"], (0, 0)⟩] ∧
    TailTile.update ⟨"f", 11, ["old"], (0, 0)⟩ ⟨some (0, 0), some "a\n"⟩ =
      (⟨"f", 11, ["old"], (0, 0)⟩, false) := by
  decide

/-- C3 (amended): `adjust_lines(delta)` clamps the display-wide count to
`[1, 100]` after adding `delta` (so 100 + 1 stays 100 and 1 − 1 stays 1),
assigns the new count to every tile and resets every signature to `(0, 0)`;
the next `update` of each tile re-reads with the new count whenever the
file's current `(mtime, size)` pair differs from the sentinel `(0, 0)`. -/
theorem adjust_lines_spec (r : TileRenderer) (delta : Int) :
    (r.adjust_lines delta).line_count = clamp (r.line_count + delta) 1 100 ∧
    (r.line_count = 100 → (r.adjust_lines 1).line_count = 100) ∧
    (r.line_count = 1 → (r.adjust_lines (-1)).line_count = 1) ∧
    (r.adjust_lines delta).tiles = r.tiles.map (fun t =>
        { t with lines := (r.adjust_lines delta).line_count, last_stat := (0, 0) }) ∧
    (∀ t2, t2 ∈ (r.adjust_lines delta).tiles → ∀ (fs : FileState) (cur : Int × Int),
      fs.stat = some cur → cur ≠ (0, 0) →
        t2.update fs =
          ({ t2 with
              last_stat := cur,
              content := read_last_n_lines fs.content
                (r.adjust_lines delta).line_count }, true)) := by
  refine ⟨rfl, fun h => ?_, fun h => ?_, rfl, fun t2 ht2 fs cur hstat hcur => ?_⟩
  · show clamp (r.line_count + 1) 1 100 = 100
    rw [h]; decide
  · show clamp (r.line_count + -1) 1 100 = 1
    rw [h]; decide
  · simp only [TileRenderer.adjust_lines] at ht2
    obtain ⟨u, hu, rfl⟩ := List.mem_map.mp ht2
    have hcur0 : ¬ (cur = 0) := hcur
    simp [TailTile.update, hstat, hcur0, TileRenderer.adjust_lines]

/-- C3 witness: after an adjustment to 11 lines the reset signature forces a
re-read at the first non-sentinel stat. -/
theorem adjust_lines_spec_w :
    TailTile.update ⟨"f", 11, [], (0, 0)⟩ ⟨some (5, 3), some "a\nb\n"⟩ =
      (⟨"f", 11, ["a", "b"], (5, 3)⟩, true) := by
  have h := (adjust_lines_spec
    (mkTileRenderer [(⟨"f", 11, [], (3, 3)⟩ : TailTile)] (1, 1)) 0).2.2.2.2
  have h2 := h ⟨"f", 11, [], (0, 0)⟩ (by decide) ⟨some (5, 3), some "a\nb\n"⟩ (5, 3)
    rfl (by decide)
  rw [h2]
  decide

/-- C6 counterexample: lowering the count with `adjust_lines` does not
truncate the cache, so immediately afterwards the cached content is longer
than the requested line count, refuting the claimed every-point invariant. -/
theorem content_bound_cex :
    let t1 := ((mkTailTile "f" 2).update ⟨some (1, 5), some "a\nb\n"⟩).1
    let r := mkTileRenderer [t1] (1, 1)
    let t2 := (r.adjust_lines (-1)).tiles.headD t1
    ¬ ((t2.content.length : Int) ≤ t2.lines) := by
  decide

/-- C6 (amended): the cache-length bound holds after construction and is
preserved by every `update` run with a requested count of at least 1; after
an `adjust_lines` the bound is restored by the next `update` whose stat is
not the sentinel `(0, 0)`, but between the two it may fail. -/
theorem content_length_invariant (t : TailTile) (fs : FileState)
    (hl : 1 ≤ t.lines) (hc : (t.content.length : Int) ≤ t.lines) :
    ((t.update fs).1.content.length : Int) ≤ (t.update fs).1.lines ∧
    (∀ fp (n : Int), 1 ≤ n →
      ((mkTailTile fp n).content.length : Int) ≤ (mkTailTile fp n).lines) ∧
    (∀ (r : TileRenderer) (delta : Int) (t2 : TailTile),
      t2 ∈ (r.adjust_lines delta).tiles → ∀ fs2 : FileState, fs2.stat ≠ some (0, 0) →
        ((t2.update fs2).1.content.length : Int) ≤ (t2.update fs2).1.lines) := by
  refine ⟨?_, fun fp n hn => ?_, fun r delta t2 ht2 fs2 hstat => ?_⟩
  · cases hs : fs.stat with
    | none =>
        by_cases hc2 : t.content = []
        · simpa [TailTile.update, hs, hc2] using hc
        · simp [TailTile.update, hs, hc2]
          omega
    | some cur =>
        by_cases hcur : cur = t.last_stat
        · simpa [TailTile.update, hs, hcur] using hc
        · simpa [TailTile.update, hs, hcur] using
            read_last_n_lines_length_le fs.content t.lines hl
  · simp [mkTailTile]
    omega
  · simp only [TileRenderer.adjust_lines] at ht2
    obtain ⟨u, hu, rfl⟩ := List.mem_map.mp ht2
    have h1 : 1 ≤ clamp (r.line_count + delta) 1 100 := one_le_clamp _
    cases hs : fs2.stat with
    | none =>
        by_cases hc2 : u.content = [] <;> simp [TailTile.update, hs, hc2] <;> omega
    | some cur =>
        have hcur0 : ¬ (cur = 0) := by
          intro hz
          exact hstat (by rw [hs, hz]; rfl)
        simpa [TailTile.update, hs, hcur0] using
          read_last_n_lines_length_le fs2.content (clamp (r.line_count + delta) 1 100) h1

/-- C6 witness: a re-read at count 2 keeps the cache within the bound. -/
theorem content_length_invariant_w :
    ((((⟨"f", 2, ["a"], (0, 0)⟩ : TailTile).update
        ⟨some (1, 1), some "x\ny\nz\n"⟩).1.content.length : Int) ≤
      ((⟨"f", 2, ["a"], (0, 0)⟩ : TailTile).update
        ⟨some (1, 1), some "x\ny\nz\n"⟩).1.lines) :=
  (content_length_invariant ⟨"f", 2, ["a"], (0, 0)⟩ ⟨some (1, 1), some "x\ny\nz\n"⟩
    (by decide) (by decide)).1

/-- C7: for `lo ≤ hi`, `clamp v lo hi` is `v` inside the interval, `lo`
below it and `hi` above it. -/
theorem clamp_spec (v lo hi : Int) (h : lo ≤ hi) :
    (lo ≤ v → v ≤ hi → clamp v lo hi = v) ∧
    (v < lo → clamp v lo hi = lo) ∧
    (hi < v → clamp v lo hi = hi) := by
  refine ⟨fun h1 h2 => ?_, fun h1 => ?_, fun h1 => ?_⟩ <;>
    · unfold clamp
      rw [max_def, min_def]
      split_ifs <;> omega

/-- C7 witness at `lo = 1`, `hi = 10`. -/
theorem clamp_spec_w :
    clamp 5 1 10 = 5 ∧ clamp 0 1 10 = 1 ∧ clamp 11 1 10 = 10 :=
  ⟨(clamp_spec 5 1 10 (by decide)).1 (by decide) (by decide),
   (clamp_spec 0 1 10 (by decide)).2.1 (by decide),
   (clamp_spec 11 1 10 (by decide)).2.2 (by decide)⟩

/-- C8: `get_content` returns a reference distinct from the internal cache
holding the same lines; mutating the returned object in any way leaves the
cache unchanged, and a subsequent `get_content` still returns the lines from
before the mutation. -/
theorem get_content_defensive (t : TailTileRef) (h : Heap)
    (hr : t.contentRef < h.objs.length) (f : List String → List String) :
    (t.get_content h).2 ≠ t.contentRef ∧
    (t.get_content h).1.read (t.get_content h).2 = h.read t.contentRef ∧
    (((t.get_content h).1.write (t.get_content h).2
        (f ((t.get_content h).1.read (t.get_content h).2))).read t.contentRef
      = h.read t.contentRef) ∧
    ((t.get_content ((t.get_content h).1.write (t.get_content h).2
        (f ((t.get_content h).1.read (t.get_content h).2)))).1.read
      (t.get_content ((t.get_content h).1.write (t.get_content h).2
        (f ((t.get_content h).1.read (t.get_content h).2)))).2
      = h.read t.contentRef) := by
  refine ⟨?_, ?_, ?_, ?_⟩
  · simp only [TailTileRef.get_content, Heap.alloc]
    omega
  · simp only [TailTileRef.get_content, Heap.alloc, Heap.read]
    exact getD_concat_self h.objs (h.objs.getD t.contentRef [])
  · simp only [TailTileRef.get_content, Heap.alloc, Heap.write, Heap.read]
    rw [getD_set_ne _ _ _ (by omega)]
    exact getD_append_lt _ _ _ hr
  · simp only [TailTileRef.get_content, Heap.alloc, Heap.write, Heap.read]
    rw [getD_concat_self, getD_set_ne _ _ _ (by omega)]
    exact getD_append_lt _ _ _ hr

/-- C8 witness: a two-line cache survives an append to the returned copy. -/
theorem get_content_defensive_w :
    (1 : Nat) ≠ 0 ∧
    Heap.read ⟨[["x", "y"], ["x", "y"]]⟩ 1 = Heap.read ⟨[["x", "y"]]⟩ 0 ∧
    Heap.read ⟨[["x", "y"], ["z", "x", "y"]]⟩ 0 = Heap.read ⟨[["x", "y"]]⟩ 0 ∧
    Heap.read ⟨[["x", "y"], ["z", "x", "y"], ["x", "y"]]⟩ 2 = Heap.read ⟨[["x", "y"]]⟩ 0 := by
  exact get_content_defensive ⟨"f", 10, 0, (0, 0)⟩ ⟨[["x", "y"]]⟩ (by decide) (List.cons "z")

/-- C9: the stat-failure branch of `update` leaves the stored signature
untouched and empties the cache, so a file recreated with the identical
signature makes the following `update` report unchanged with an empty
cache. -/
theorem update_stat_fail_frame (t : TailTile) (fs1 fs2 : FileState)
    (h1 : fs1.stat = none) (h2 : fs2.stat = some t.last_stat) :
    ((t.update fs1).1.last_stat = t.last_stat) ∧
    ((t.update fs1).1.content = []) ∧
    (((t.update fs1).1).update fs2 = ((t.update fs1).1, false)) := by
  by_cases hc : t.content = []
  · refine ⟨?_, ?_, ?_⟩ <;> simp [TailTile.update, h1, h2, hc]
  · refine ⟨?_, ?_, ?_⟩ <;> simp [TailTile.update, h1, h2, hc]

/-- C9 witness: deletion then recreation at the same signature `(7, 7)`. -/
theorem update_stat_fail_frame_w :
    ((⟨"f", 10, ["x"], (7, 7)⟩ : TailTile).update ⟨none, none⟩).1.last_stat = (7, 7) ∧
    ((⟨"f", 10, ["x"], (7, 7)⟩ : TailTile).update ⟨none, none⟩).1.content = [] ∧
    (((⟨"f", 10, ["x"], (7, 7)⟩ : TailTile).update ⟨none, none⟩).1).update
        ⟨some (7, 7), some "new\n"⟩ =
      (((⟨"f", 10, ["x"], (7, 7)⟩ : TailTile).update ⟨none, none⟩).1, false) := by
  exact update_stat_fail_frame ⟨"f", 10, ["x"], (7, 7)⟩ ⟨none, none⟩
    ⟨some (7, 7), some "new\n"⟩ rfl rfl

/-- C10: on an existing, readable, non-empty file, `read_last_n_lines` with
`n = 0` returns all of the file's stripped lines (Python's `lines[-0:]` is
the whole list), not the empty sequence. -/
theorem read_last_n_lines_zero (text : String) (h : text ≠ "") :
    read_last_n_lines (some text) 0 = (pyReadlines text).map rstripNewlines ∧
    read_last_n_lines (some text) 0 ≠ [] := by
  have hne : (pyReadlines text).map rstripNewlines ≠ [] := by
    simp [pyReadlines_ne_nil text h]
  have heq : read_last_n_lines (some text) 0 = (pyReadlines text).map rstripNewlines := by
    simp only [read_last_n_lines, if_neg hne]
    exact pySliceFrom_zero _
  exact ⟨heq, heq ▸ hne⟩

/-- C10 witness on a two-line file. -/
theorem read_last_n_lines_zero_w :
    read_last_n_lines (some "a\nb") 0 = (pyReadlines "a\nb").map rstripNewlines ∧
    read_last_n_lines (some "a\nb") 0 ≠ [] :=
  read_last_n_lines_zero "a\nb" (by decide)
